import Mathlib

/-!
Shallow embedding of the job execution and live log-streaming core of the
repository: the SSE line-assembling writer and hub of src/server/main.go,
and the Node-RED clone runtime (SSE registry, ring buffer, process map and
HTTP handlers) of src/node-red/nodes/clone/clone.js.  Bytes are modelled as
Lean Char lists (all inputs of interest are ASCII), JS/Go maps as
association lists with unique keys, and JS Sets as duplicate-free lists in
insertion order.
-/

namespace Recode

/-! ## Line Assembler: sseWriter.Write of src/server/main.go

The Go code appends the incoming chunk to the internal buffer, runs a
bufio.Scanner with bufio.ScanLines over the whole buffer, broadcasts each
token plus a newline, advances "used" by len(token)+1 per token (clamped to
the buffer length afterwards), and keeps the remainder.  bufio.ScanLines
drops a final carriage return from each token and, at EOF, returns the last
token even when it is not newline-terminated. -/

/-- dropCR of bufio.ScanLines: remove one trailing carriage return. -/
def dropCR (s : List Char) : List Char :=
  if s.getLast? = some '\r' then s.dropLast else s

/-- The token sequence produced by a bufio.Scanner running bufio.ScanLines
over the given bytes: one token per newline-terminated segment (newline
excluded, trailing CR dropped) plus, at EOF, the final non-empty segment
even without a newline.  The accumulator holds the current segment
reversed. -/
def scanLines : List Char → List Char → List (List Char)
  | [], acc => if acc.isEmpty then [] else [dropCR acc.reverse]
  | c :: rest, acc =>
    if c = '\n' then dropCR acc.reverse :: scanLines rest []
    else scanLines rest (c :: acc)

/-- State of one sseWriter (src/server/main.go): hub id, stream tag and the
accumulated byte buffer. -/
structure SseWriter where
  id : String
  stream : String
  buf : List Char
  deriving DecidableEq

/-- Everything one call of sseWriter.Write produces: the new writer state,
the lines broadcast (each token plus a newline), and the two returned
values (count and error). -/
structure WriteOut where
  w : SseWriter
  emitted : List (List Char)
  n : Nat
  err : Option String
  deriving DecidableEq

/-- sseWriter.Write of src/server/main.go: append p to the buffer, scan the
whole buffer with ScanLines broadcasting each token plus a newline, advance
used by len(token)+1 per token, clamp used to the buffer length, keep the
rest, and return (len p, nil). -/
def sseWrite (w : SseWriter) (p : List Char) : WriteOut :=
  let all := w.buf ++ p
  let toks := scanLines all []
  let used := toks.foldl (fun u t => u + (t.length + 1)) 0
  let used2 := if all.length < used then all.length else used
  { w := { w with buf := all.drop used2 }
    emitted := toks.map (fun t => t ++ ['\n'])
    n := p.length
    err := none }

/-- Run a sequence of Write calls, concatenating everything broadcast. -/
def runWrites (w : SseWriter) (chunks : List (List Char)) :
    SseWriter × List (List Char) :=
  chunks.foldl (fun acc p =>
    let o := sseWrite acc.1 p
    (o.w, acc.2 ++ o.emitted)) (w, [])

/-! ## Association-list maps (JS Map / Go map keyed by nodeId) -/

/-- Map lookup (Map.get): first binding of the key. -/
def mGet {α : Type} (m : List (String × α)) (k : String) : Option α :=
  match m with
  | [] => none
  | (k', v) :: rest => if k' = k then some v else mGet rest k

/-- Map update (Map.set): replace the binding if present, else append. -/
def mSet {α : Type} (m : List (String × α)) (k : String) (v : α) :
    List (String × α) :=
  match m with
  | [] => [(k, v)]
  | (k', v') :: rest =>
    if k' = k then (k, v) :: rest else (k', v') :: mSet rest k v

/-- Map removal (Map.delete). -/
def mDel {α : Type} (m : List (String × α)) (k : String) :
    List (String × α) :=
  match m with
  | [] => []
  | (k', v') :: rest =>
    if k' = k then mDel rest k else (k', v') :: mDel rest k

/-- JS Set.add on a duplicate-free list in insertion order. -/
def setAdd (s : List Nat) (c : Nat) : List Nat :=
  if c ∈ s then s else s ++ [c]

/-! ## clone.js runtime state and SSE payloads -/

/-- One SSE payload of clone.js / main.go, discriminated by its "type"
field: bootstrap (with the ring-buffer history), log, done, hello (sent
only by the Go demo variant) and the keep-alive ping. -/
inductive Msg where
  | bootstrap (hist : List String)
  | log (stream line : String)
  | done (code : Option Int) (target : String)
  | hello
  | ping
  deriving DecidableEq

/-- The three module-level maps of clone.js: streams (nodeId -> Set of SSE
responses, responses modelled as client ids), buffers (nodeId -> string
ring buffer) and procs (nodeId -> running child process, modelled by its
pid). -/
structure NodeSt where
  streams : List (String × List Nat)
  buffers : List (String × List String)
  procs : List (String × Nat)
  deriving DecidableEq

/-- The initial state: all three maps empty. -/
def initSt : NodeSt := ⟨[], [], []⟩

/-- addClient of clone.js: create the set on first use, then add. -/
def addClient (st : NodeSt) (nodeId : String) (c : Nat) : NodeSt :=
  let s := (mGet st.streams nodeId).getD []
  { st with streams := mSet st.streams nodeId (setAdd s c) }

/-- removeClient of clone.js: if the set exists, delete the client, and
drop the whole key once the set is empty. -/
def removeClient (st : NodeSt) (nodeId : String) (c : Nat) : NodeSt :=
  match mGet st.streams nodeId with
  | none => st
  | some s =>
    let s' := s.filter (fun d => d != c)
    if s'.isEmpty then { st with streams := mDel st.streams nodeId }
    else { st with streams := mSet st.streams nodeId s' }

/-- The ring-buffer step inside pushLog of clone.js:
buf.push(line); if (buf.length > 2000) buf.shift(). -/
def bufAppend (buf : List String) (line : String) : List String :=
  let b := buf ++ [line]
  if 2000 < b.length then b.drop 1 else b

/-- pushLog of clone.js: read the buffer (or a fresh one), append with
FIFO eviction at capacity 2000, and store it back. -/
def pushLog (st : NodeSt) (nodeId : String) (line : String) : NodeSt :=
  let b := (mGet st.buffers nodeId).getD []
  { st with buffers := mSet st.buffers nodeId (bufAppend b line) }

/-- broadcast of clone.js: if no set is registered for the id, do nothing;
otherwise res.write the payload to every client in the set.  Write results
are ignored by the source, so the state is returned unchanged; the write
attempts are reported as (client, payload, succeeded), with the set of
failing clients supplied as an environment parameter. -/
def broadcast (st : NodeSt) (nodeId : String) (msg : Msg)
    (failing : List Nat) : NodeSt × List (Nat × Msg × Bool) :=
  match mGet st.streams nodeId with
  | none => (st, [])
  | some s => (st, s.map (fun c => (c, msg, !failing.contains c)))

/-- The GET /git/clone/stream/:id handler of clone.js, up to its long-lived
tail: read the history (or []), write one bootstrap payload to the new
client, then register it.  Returns the new state and the writes performed
on the attaching response. -/
def attach (st : NodeSt) (nodeId : String) (c : Nat) :
    NodeSt × List (Nat × Msg × Bool) :=
  let hist := (mGet st.buffers nodeId).getD []
  (addClient st nodeId c, [(c, Msg.bootstrap hist, true)])

/-- sendLine inside the start handler of clone.js: push "[stream] line"
into the ring buffer, then broadcast the log payload. -/
def sendLine (st : NodeSt) (nodeId stream line : String)
    (failing : List Nat) : NodeSt × List (Nat × Msg × Bool) :=
  let st1 := pushLog st nodeId ("[" ++ stream ++ "] " ++ line)
  broadcast st1 nodeId (Msg.log stream line) failing

/-- The workflow notification n.send performs on close: payload
{event done, code, target, repo, branch} delivered to node nodeId. -/
structure Notif where
  nodeId : String
  code : Option Int
  target : String
  repo : String
  branch : String
  deriving DecidableEq

/-- Everything the child.on close handler of clone.js does: the state after
procs.delete, the hub publications it performs (one broadcast call), the
workflow notifications it sends, and the per-client writes of that
broadcast. -/
structure CloseOut where
  st : NodeSt
  hubCalls : List Msg
  notifs : List Notif
  writes : List (Nat × Msg × Bool)
  deriving DecidableEq

/-- The child.on close handler of clone.js: procs.delete(nodeId), one
broadcast of the done payload, then, when RED.nodes.getNode finds the node,
one n.send with the same code and target (the status update is not
modelled). -/
def onClose (st : NodeSt) (nodeId : String) (code : Option Int)
    (target repo branch : String) (nodeExists : Bool) : CloseOut :=
  let st1 : NodeSt := { st with procs := mDel st.procs nodeId }
  let ws := (broadcast st1 nodeId (Msg.done code target) []).2
  { st := st1
    hubCalls := [Msg.done code target]
    notifs := if nodeExists then [⟨nodeId, code, target, repo, branch⟩] else []
    writes := ws }

/-! ## Start and cancel handlers of clone.js -/

/-- Character class of the repo-guard regex: JS \w plus dot and hyphen. -/
def isWordChar (c : Char) : Bool :=
  c.isAlphanum || c = '_' || c = '.' || c = '-'

/-- The repo URL guard of clone.js,
new RegExp of caret, (git@ | http(s)://), one or more [\w.-], then : or /,
tested against the start of the string.  The class characters never match
: or /, so the greedy run needs no backtracking. -/
def repoOk (repo : String) : Bool :=
  let cs := repo.toList
  let rest : Option (List Char) :=
    if cs.take 4 = "git@".toList then some (cs.drop 4)
    else if cs.take 7 = "http://".toList then some (cs.drop 7)
    else if cs.take 8 = "https://".toList then some (cs.drop 8)
    else none
  match rest with
  | none => false
  | some r =>
    let run := r.takeWhile isWordChar
    match r.drop run.length with
    | ':' :: _ => !run.isEmpty
    | '/' :: _ => !run.isEmpty
    | _ => false

/-- The characters after the last slash (path.basename, for the
slash-free and simple relative arguments the handler receives). -/
def lastSegment : List Char → List Char → List Char
  | [], acc => acc.reverse
  | c :: rest, acc =>
    if c = '/' then lastSegment rest [] else lastSegment rest (c :: acc)

/-- path.basename over our byte model. -/
def baseName (s : String) : String := ⟨lastSegment s.toList []⟩

/-- The target path computed by the start handler:
path.join(os.tmpdir(), "node-red-git", nodeId, base) with base either
path.basename(destDir) or "repo-" plus Date.now(); os.tmpdir() is fixed to
/tmp and Date.now() passed in as now. -/
def mkTarget (nodeId destDir : String) (now : Nat) : String :=
  "/tmp/node-red-git/" ++ nodeId ++ "/" ++
    (if destDir = "" then "repo-" ++ toString now else baseName destDir)

/-- Response of the POST /git/clone/start handler. -/
inductive StartResp where
  | badRequest (err : String)
  | accepted (pid : Nat) (target : String)
  deriving DecidableEq

/-- True exactly on the accepted (202, started true) response. -/
def StartResp.isAccepted : StartResp → Bool
  | .accepted _ _ => true
  | _ => false

/-- Result of the start handler: the new shared state and the response. -/
structure StartOut where
  st : NodeSt
  resp : StartResp
  deriving DecidableEq

/-- The POST /git/clone/start handler of clone.js: reject a missing nodeId
or repo (JS falsy, here the empty string) and a repo failing the URL guard;
otherwise spawn (the fresh child modelled by freshPid), store it with
procs.set — overwriting any existing entry — and answer 202.  The spawned
child's stdout/stderr and close callbacks are the sendLine and onClose
operations above. -/
def startClone (st : NodeSt) (nodeId repo branch destDir : String)
    (freshPid : Nat) (now : Nat) : StartOut :=
  if nodeId = "" ∨ repo = "" then
    ⟨st, .badRequest "nodeId and repo are required"⟩
  else if repoOk repo then
    ⟨{ st with procs := mSet st.procs nodeId freshPid },
      .accepted freshPid (mkTarget nodeId destDir now)⟩
  else ⟨st, .badRequest "invalid repo url"⟩

/-- Response of the POST /git/clone/cancel handler. -/
inductive CancelResp where
  | notFound
  | ok
  deriving DecidableEq

/-- Result of the cancel handler: state, response, signals sent
(pids given SIGTERM) and hub publications (the handler makes none). -/
structure CancelOut where
  st : NodeSt
  resp : CancelResp
  kills : List Nat
  hubCalls : List Msg
  deriving DecidableEq

/-- The truthiness test of the cancel handler:
const p = nodeId && procs.get(nodeId). -/
def mGetProc (st : NodeSt) (nodeId : String) : Option Nat :=
  if nodeId = "" then none else mGet st.procs nodeId

/-- The POST /git/clone/cancel handler of clone.js: with no recorded
process answer 404 and do nothing; otherwise SIGTERM the recorded process
and answer ok, leaving every map untouched. -/
def cancelClone (st : NodeSt) (nodeId : String) : CancelOut :=
  match mGetProc st nodeId with
  | none => ⟨st, .notFound, [], []⟩
  | some pid => ⟨st, .ok, [pid], []⟩

/-! ## Scenario harnesses built from the handlers -/

/-- One live line relayed after attach: sendLine, with the writes
accumulated. -/
def relayStep (nodeId : String) (acc : NodeSt × List (Nat × Msg × Bool))
    (sl : String × String) : NodeSt × List (Nat × Msg × Bool) :=
  let o := sendLine acc.1 nodeId sl.1 sl.2 []
  (o.1, acc.2 ++ o.2)

/-- Attach client c to nodeId, then relay the given (stream, line) pairs,
collecting every write performed. -/
def attachThenSend (st : NodeSt) (nodeId : String) (c : Nat)
    (posts : List (String × String)) : NodeSt × List (Nat × Msg × Bool) :=
  posts.foldl (relayStep nodeId) (attach st nodeId c)

/-- The payload sequence a given client observes in a write log. -/
def observed (writes : List (Nat × Msg × Bool)) (c : Nat) : List Msg :=
  (writes.filter (fun t => t.1 == c)).map (fun t => t.2.1)

/-- One subscribe or unsubscribe operation on the streams map. -/
inductive HubOp where
  | add (id : String) (c : Nat)
  | rem (id : String) (c : Nat)
  deriving DecidableEq

/-- Interpret one HubOp by the corresponding clone.js helper. -/
def applyHubOp (st : NodeSt) : HubOp → NodeSt
  | .add id c => addClient st id c
  | .rem id c => removeClient st id c

/-- Run a whole interleaving of subscribe/unsubscribe operations from the
empty state. -/
def applyHubOps (ops : List HubOp) : NodeSt :=
  ops.foldl applyHubOp initSt

/-- The 25 second heartbeat body of the stream handler: write one ping to
that subscriber only; the write result is ignored and no shared state is
touched. -/
def pingTick (st : NodeSt) (c : Nat) (failing : List Nat) :
    NodeSt × List (Nat × Msg × Bool) :=
  (st, [(c, Msg.ping, !failing.contains c)])

/-! ## Helper lemmas about the association-list maps -/

theorem mGet_mSet_self {α : Type} (m : List (String × α)) (k : String)
    (v : α) : mGet (mSet m k v) k = some v := by
  induction m with
  | nil => simp [mGet, mSet]
  | cons hd tl ih =>
    obtain ⟨k', v'⟩ := hd
    by_cases h : k' = k
    · subst h; simp [mGet, mSet]
    · simp [mGet, mSet, h, ih]

theorem mGet_mSet_ne {α : Type} (m : List (String × α)) (k k' : String)
    (v : α) (h : k ≠ k') : mGet (mSet m k v) k' = mGet m k' := by
  induction m with
  | nil => simp [mGet, mSet, h]
  | cons hd tl ih =>
    obtain ⟨a, b⟩ := hd
    by_cases ha : a = k
    · subst ha
      simp [mGet, mSet, h]
    · simp [mGet, mSet, ha, ih]

theorem mGet_mDel_self {α : Type} (m : List (String × α)) (k : String) :
    mGet (mDel m k) k = none := by
  induction m with
  | nil => simp [mGet, mDel]
  | cons hd tl ih =>
    obtain ⟨a, b⟩ := hd
    by_cases ha : a = k
    · simp [mDel, ha, ih]
    · simp [mGet, mDel, ha, ih]

theorem mGet_mDel_ne {α : Type} (m : List (String × α)) (k k' : String)
    (h : k ≠ k') : mGet (mDel m k) k' = mGet m k' := by
  induction m with
  | nil => simp [mDel]
  | cons hd tl ih =>
    obtain ⟨a, b⟩ := hd
    by_cases ha : a = k
    · subst ha
      have : a ≠ k' := h
      simp [mGet, mDel, this, ih]
    · simp [mGet, mDel, ha, ih]

theorem pushLog_streams (st : NodeSt) (n l : String) :
    (pushLog st n l).streams = st.streams := rfl

theorem broadcast_fst (st : NodeSt) (nodeId : String) (msg : Msg)
    (failing : List Nat) : (broadcast st nodeId msg failing).1 = st := by
  cases h : mGet st.streams nodeId <;> simp [broadcast, h]

theorem broadcast_writes (st : NodeSt) (nodeId : String) (msg : Msg)
    (failing : List Nat) :
    (broadcast st nodeId msg failing).2
      = ((mGet st.streams nodeId).getD []).map
          (fun c => (c, msg, !failing.contains c)) := by
  cases h : mGet st.streams nodeId <;> simp [broadcast, h]

/-! ## Claims about the Line Assembler -/

/-- Claim C9: for every buffer state and every input chunk, sseWriter.Write
returns (len p, nil): it never reports an error or a short write, so a
delivery failure can never propagate back to the producer. -/
theorem c9_write_full_length_no_error (w : SseWriter) (p : List Char) :
    (sseWrite w p).n = p.length ∧ (sseWrite w p).err = none :=
  ⟨rfl, rfl⟩

/-- Claim C1 (evaluation at the failing input): writing the chunks "a\n",
"b", "c\n" makes the writer broadcast the three lines "a\n", "b\n", "c\n"
and leaves an empty buffer after every call: the terminator-free fragment
"b" is flushed immediately as its own line — bufio.ScanLines returns the
final token at EOF — instead of being retained and merged into "bc" as the
claim (and the writer's own comment) states. -/
theorem c1_trailing_fragment_flushed :
    (runWrites ⟨"n1", "stdout", []⟩
        ["a\n".toList, "b".toList, "c\n".toList]).2
      = ["a\n".toList, "b\n".toList, "c\n".toList] ∧
    (runWrites ⟨"n1", "stdout", []⟩
        ["a\n".toList, "b".toList, "c\n".toList]).1.buf = [] := by
  decide

/-! ## Claims about the broadcast and cancel paths -/

/-- Claim C6 (counterexample): with clients 0 and 1 subscribed to "n1" and
the write to client 0 failing, broadcast leaves the subscriber map exactly
as it was — the failed handle 0 is not removed (the source discards the
write result); the write to client 1 is still attempted. -/
theorem c6_failed_write_not_removed :
    (broadcast ⟨[("n1", [0, 1])], [], []⟩ "n1"
        (Msg.log "stdout" "x") [0]).2
      = [(0, Msg.log "stdout" "x", false), (1, Msg.log "stdout" "x", true)] ∧
    (broadcast ⟨[("n1", [0, 1])], [], []⟩ "n1"
        (Msg.log "stdout" "x") [0]).1.streams = [("n1", [0, 1])] := by
  decide

/-- Claim C6 (amended): a failed write of a live event or of a keep-alive
ping does not unsubscribe the handle — write results are discarded, the
subscriber map is unchanged by broadcast and by the heartbeat, and delivery
is still attempted to every subscriber of the id independently of which
writes fail; handles are removed only by the separate connection-close
path. -/
theorem c6_broadcast_ignores_failures (st : NodeSt) (nodeId : String)
    (msg : Msg) (failing : List Nat) (c : Nat) :
    (broadcast st nodeId msg failing).1 = st ∧
    ((broadcast st nodeId msg failing).2.map (fun t => t.1))
      = (mGet st.streams nodeId).getD [] ∧
    (pingTick st c failing).1 = st := by
  refine ⟨broadcast_fst st nodeId msg failing, ?_, rfl⟩
  rw [broadcast_writes]
  simp [Function.comp_def]

/-- Claim C7: a cancel request whose job id has no recorded process —
including one whose run already reached a terminal state, since the close
handler deletes the procs entry — answers 404 not-found, changes no state,
signals nothing and publishes no further event. -/
theorem c7_cancel_not_found (st : NodeSt) (nodeId : String)
    (h : mGetProc st nodeId = none) :
    cancelClone st nodeId = ⟨st, CancelResp.notFound, [], []⟩ := by
  simp [cancelClone, h]

theorem c7_cancel_not_found_witness :
    mGetProc initSt "j2" = none ∧
    cancelClone initSt "j2" = ⟨initSt, CancelResp.notFound, [], []⟩ :=
  ⟨by decide, c7_cancel_not_found initSt "j2" (by decide)⟩

/-- Claim C10: a successful cancel mutates none of the three shared maps —
the returned state is identical, the only effect is one SIGTERM to the
recorded pid and no hub publication; the procs entry is removed, and the
terminal event emitted, only by the close handler. -/
theorem c10_cancel_frame (st : NodeSt) (nodeId : String) (pid : Nat)
    (code : Option Int) (target repo branch : String) (nodeExists : Bool)
    (h : mGetProc st nodeId = some pid) :
    cancelClone st nodeId = ⟨st, CancelResp.ok, [pid], []⟩ ∧
    (onClose st nodeId code target repo branch nodeExists).st.procs
      = mDel st.procs nodeId ∧
    (onClose st nodeId code target repo branch nodeExists).st.streams
      = st.streams ∧
    (onClose st nodeId code target repo branch nodeExists).st.buffers
      = st.buffers ∧
    (onClose st nodeId code target repo branch nodeExists).hubCalls
      = [Msg.done code target] := by
  refine ⟨by simp [cancelClone, h], rfl, rfl, rfl, rfl⟩

theorem c10_cancel_frame_witness :
    mGetProc ({ streams := [], buffers := [], procs := [("n1", 7)] } : NodeSt)
        "n1" = some 7 ∧
    cancelClone ({ streams := [], buffers := [], procs := [("n1", 7)] } : NodeSt)
        "n1"
      = ⟨{ streams := [], buffers := [], procs := [("n1", 7)] },
          CancelResp.ok, [7], []⟩ :=
  ⟨by decide,
    (c10_cancel_frame { streams := [], buffers := [], procs := [("n1", 7)] }
      "n1" 7 none "t" "r" "b" true (by decide)).1⟩

/-- Claim C4: the close handler publishes exactly one terminal event
through the hub — the done payload with the exit code and target — writes
it to every currently subscribed handle, and when the owning node exists it
notifies the workflow layer exactly once with the same code and target
(plus repo and branch). -/
theorem c4_terminal_event_and_notification_once (st : NodeSt)
    (nodeId : String) (code : Option Int) (target repo branch : String) :
    (onClose st nodeId code target repo branch true).hubCalls
      = [Msg.done code target] ∧
    (onClose st nodeId code target repo branch true).notifs
      = [⟨nodeId, code, target, repo, branch⟩] ∧
    (onClose st nodeId code target repo branch true).writes
      = ((mGet st.streams nodeId).getD []).map
          (fun c => (c, Msg.done code target, true)) := by
  refine ⟨rfl, rfl, ?_⟩
  show (broadcast _ nodeId (Msg.done code target) []).2 = _
  rw [broadcast_writes]
  rfl

/-! ## Claim C8: the subscriber map never holds an empty set -/

/-- Every job id present as a key of the streams map has a non-empty
subscriber set. -/
def StreamsInv (m : List (String × List Nat)) : Prop :=
  ∀ k s, mGet m k = some s → s ≠ []

theorem setAdd_ne_nil (s : List Nat) (c : Nat) : setAdd s c ≠ [] := by
  unfold setAdd
  split
  · exact List.ne_nil_of_mem (by assumption)
  · simp

theorem addClient_inv (st : NodeSt) (nodeId : String) (c : Nat)
    (h : StreamsInv st.streams) :
    StreamsInv (addClient st nodeId c).streams := by
  intro k s hk
  simp only [addClient] at hk
  by_cases hkk : nodeId = k
  · subst hkk
    rw [mGet_mSet_self] at hk
    have hs := Option.some.inj hk
    subst hs
    exact setAdd_ne_nil _ _
  · rw [mGet_mSet_ne _ _ _ _ hkk] at hk
    exact h k s hk

theorem removeClient_inv (st : NodeSt) (nodeId : String) (c : Nat)
    (h : StreamsInv st.streams) :
    StreamsInv (removeClient st nodeId c).streams := by
  intro k s hk
  rw [removeClient] at hk
  cases hg : mGet st.streams nodeId with
  | none =>
    rw [hg] at hk
    exact h k s hk
  | some s0 =>
    rw [hg] at hk
    by_cases he : (s0.filter (fun d => d != c)).isEmpty
    · simp only [he, if_pos] at hk
      by_cases hkk : nodeId = k
      · subst hkk
        rw [mGet_mDel_self] at hk
        cases hk
      · rw [mGet_mDel_ne _ _ _ hkk] at hk
        exact h k s hk
    · simp only [he, if_neg, Bool.false_eq_true, not_false_iff] at hk
      by_cases hkk : nodeId = k
      · subst hkk
        rw [mGet_mSet_self] at hk
        have hs := Option.some.inj hk
        subst hs
        intro hnil
        rw [hnil] at he
        exact he rfl
      · rw [mGet_mSet_ne _ _ _ _ hkk] at hk
        exact h k s hk

theorem hubOps_inv (ops : List HubOp) :
    ∀ st : NodeSt, StreamsInv st.streams →
      StreamsInv ((ops.foldl applyHubOp st).streams) := by
  induction ops with
  | nil => intro st h; exact h
  | cons op ops ih =>
    intro st h
    rw [List.foldl_cons]
    apply ih
    cases op with
    | add id c => exact addClient_inv st id c h
    | rem id c => exact removeClient_inv st id c h

/-- Claim C8: after any interleaving of subscribe and unsubscribe
operations starting from the empty map, every job id present as a key of
the subscriber map holds a non-empty subscriber set — removing the last
subscriber deletes the key, and a key only appears when a subscriber is
inserted under it. -/
theorem c8_hub_nonempty_invariant (ops : List HubOp) (k : String)
    (s : List Nat) (h : mGet (applyHubOps ops).streams k = some s) :
    s ≠ [] := by
  have h0 : StreamsInv initSt.streams := by
    intro k' s' hk'
    simp [initSt, mGet] at hk'
  exact hubOps_inv ops initSt h0 k s h

theorem c8_hub_nonempty_invariant_witness :
    mGet (applyHubOps [HubOp.add "a" 1]).streams "a" = some [1] ∧
    ([1] : List Nat) ≠ [] :=
  ⟨by decide, c8_hub_nonempty_invariant [HubOp.add "a" 1] "a" [1] (by decide)⟩

/-! ## Claim C3: duplicate start is not rejected -/

/-- Claim C3 (counterexample): with a run for "n1" still recorded (pid 7),
a second well-formed start request for "n1" is answered 202 started — not
an already-running error — and the registry entry for "n1" now points at
the new child (pid 8): the first run is silently superseded. -/
theorem c3_second_start_not_rejected :
    (startClone ({ streams := [], buffers := [], procs := [("n1", 7)] } : NodeSt)
        "n1" "https://example.com/r.git" "" "d" 8 0).resp.isAccepted = true ∧
    mGet (startClone ({ streams := [], buffers := [], procs := [("n1", 7)] } : NodeSt)
        "n1" "https://example.com/r.git" "" "d" 8 0).st.procs "n1" = some 8 := by
  decide

/-- Claim C3 (amended): the start handler performs no duplicate check: for
every well-formed request (non-empty nodeId and repo, repo passing the URL
guard) it answers 202 started and overwrites the procs entry for the id
with the freshly spawned child, whatever run was recorded before — a
still-active first run keeps its process and subscribers but loses its
registry entry; only malformed requests are rejected. -/
theorem c3_duplicate_start_supersedes (st : NodeSt)
    (nodeId repo branch destDir : String) (pid now : Nat)
    (h1 : nodeId ≠ "") (h2 : repo ≠ "") (h3 : repoOk repo = true) :
    startClone st nodeId repo branch destDir pid now
      = ⟨{ st with procs := mSet st.procs nodeId pid },
          StartResp.accepted pid (mkTarget nodeId destDir now)⟩ := by
  simp [startClone, h1, h2, h3]

theorem c3_duplicate_start_supersedes_witness :
    ("n1" : String) ≠ "" ∧ ("https://example.com/r.git" : String) ≠ "" ∧
    repoOk "https://example.com/r.git" = true ∧
    startClone ({ streams := [], buffers := [], procs := [("n1", 7)] } : NodeSt)
        "n1" "https://example.com/r.git" "" "d" 8 0
      = ⟨{ streams := [], buffers := [], procs := mSet [("n1", 7)] "n1" 8 },
          StartResp.accepted 8 (mkTarget "n1" "d" 0)⟩ :=
  ⟨by decide, by decide, by decide,
    c3_duplicate_start_supersedes
      { streams := [], buffers := [], procs := [("n1", 7)] }
      "n1" "https://example.com/r.git" "" "d" 8 0
      (by decide) (by decide) (by decide)⟩

/-! ## Claim C2: the ring buffer keeps the most recent 2000 lines -/

theorem bufAppend_foldl (xs : List String) :
    xs.foldl bufAppend [] = xs.drop (xs.length - 2000) := by
  induction xs using List.reverseRecOn with
  | nil => rfl
  | append_singleton xs x ih =>
    rw [List.foldl_append, List.foldl_cons, List.foldl_nil, ih]
    by_cases h : xs.length < 2000
    · have h0 : xs.length - 2000 = 0 := by omega
      have h1 : (xs ++ [x]).length - 2000 = 0 := by simp; omega
      rw [h0, List.drop_zero, h1, List.drop_zero]
      simp only [bufAppend]
      rw [if_neg (by simp; omega)]
    · have hd : xs.drop (xs.length - 2000) ++ [x]
          = (xs ++ [x]).drop (xs.length - 2000) := by
        rw [List.drop_append_eq_append_drop]
        have h2 : (xs.length - 2000) - xs.length = 0 := by omega
        rw [h2, List.drop_zero]
      simp only [bufAppend]
      rw [if_pos (by simp [List.length_drop]; omega)]
      rw [hd, List.drop_drop]
      have h4 : xs.length - 2000 + 1 = (xs ++ [x]).length - 2000 := by
        simp only [List.length_append, List.length_cons, List.length_nil]
        omega
      rw [h4]

theorem pushLog_foldl_get (nodeId : String) (xs : List String) :
    ∀ st : NodeSt,
      (mGet (xs.foldl (fun s l => pushLog s nodeId l) st).buffers nodeId).getD []
        = xs.foldl bufAppend ((mGet st.buffers nodeId).getD []) := by
  induction xs with
  | nil => intro st; rfl
  | cons x xs ih =>
    intro st
    rw [List.foldl_cons, List.foldl_cons, ih]
    congr 1
    simp [pushLog, mGet_mSet_self]

/-- Claim C2: after any sequence of pushLog appends for a job, the stored
buffer is exactly the suffix of the appended lines of length at most 2000
(eviction is FIFO and order-preserving), so the bootstrap payload a late
subscriber receives carries exactly the most recent min(n, 2000) lines,
oldest first — after 2500 lines, the most recent 2000. -/
theorem c2_ring_buffer_bounded_fifo (xs : List String) (nodeId : String)
    (c : Nat) :
    (attach (xs.foldl (fun s l => pushLog s nodeId l) initSt) nodeId c).2
      = [(c, Msg.bootstrap (xs.drop (xs.length - 2000)), true)] ∧
    (xs.drop (xs.length - 2000)).length ≤ 2000 := by
  constructor
  · simp only [attach]
    rw [pushLog_foldl_get]
    simp only [initSt, mGet, Option.getD_none]
    rw [bufAppend_foldl]
  · rw [List.length_drop]
    omega

/-! ## Claim C5: what a newly attached subscriber observes -/

theorem observed_append (w w' : List (Nat × Msg × Bool)) (c : Nat) :
    observed (w ++ w') c = observed w c ++ observed w' c := by
  simp [observed, List.filter_append]

theorem sendLine_eq (st : NodeSt) (nodeId a b : String) (s : List Nat)
    (h : mGet st.streams nodeId = some s) :
    sendLine st nodeId a b []
      = (pushLog st nodeId ("[" ++ a ++ "] " ++ b),
         s.map (fun d => (d, Msg.log a b, true))) := by
  simp [sendLine, broadcast, pushLog_streams, h]

theorem observed_map (s : List Nat) (m : Msg) (c : Nat)
    (hs : s.filter (fun d => d == c) = [c]) :
    observed (s.map (fun d => (d, m, true))) c = [m] := by
  unfold observed
  rw [List.filter_map]
  have hcomp : ((fun t : Nat × Msg × Bool => t.1 == c)
      ∘ (fun d => (d, m, true))) = fun d => d == c := rfl
  rw [hcomp, hs]
  rfl

theorem observed_relay (nodeId : String) (c : Nat) (s : List Nat)
    (hs : s.filter (fun d => d == c) = [c]) (posts : List (String × String)) :
    ∀ (st : NodeSt) (w : List (Nat × Msg × Bool)),
      mGet st.streams nodeId = some s →
      observed (posts.foldl (relayStep nodeId) (st, w)).2 c
        = observed w c ++ posts.map (fun sl => Msg.log sl.1 sl.2) := by
  induction posts with
  | nil => intro st w _; simp
  | cons sl posts ih =>
    intro st w h
    rw [List.foldl_cons]
    have hstep : relayStep nodeId (st, w) sl
        = (pushLog st nodeId ("[" ++ sl.1 ++ "] " ++ sl.2),
           w ++ s.map (fun d => (d, Msg.log sl.1 sl.2, true))) := by
      simp only [relayStep]
      rw [sendLine_eq st nodeId sl.1 sl.2 s h]
    rw [hstep]
    rw [ih _ _ (by rw [pushLog_streams]; exact h)]
    rw [observed_append]
    rw [observed_map s (Msg.log sl.1 sl.2) c hs]
    simp

/-- Claim C5 (counterexample): with one buffered line for "n1", a fresh
subscriber that attaches and then sees one live line observes exactly the
bootstrap payload followed by the live log payload — no hello/ready event
is ever written between them (the Node-RED variant sends no hello at all;
only the Go demo variant, which has no bootstrap, sends one). -/
theorem c5_no_hello_between_bootstrap_and_live :
    observed (attachThenSend
        ({ streams := [], buffers := [("n1", ["[stdout] a\n"])], procs := [] } : NodeSt)
        "n1" 0 [("stdout", "b\n")]).2 0
      = [Msg.bootstrap ["[stdout] a\n"], Msg.log "stdout" "b\n"] ∧
    Msg.hello ∉ observed (attachThenSend
        ({ streams := [], buffers := [("n1", ["[stdout] a\n"])], procs := [] } : NodeSt)
        "n1" 0 [("stdout", "b\n")]).2 0 := by
  decide

/-- Claim C5 (amended): a fresh subscriber attaching to a job's stream
first observes one bootstrap event carrying exactly the current ring
buffer snapshot, and then every subsequent live event, in order — the
snapshot is taken and the client registered in one synchronous step, so no
line is delivered both in the bootstrap and live; no hello/ready event is
sent in between. -/
theorem c5_bootstrap_then_live (st : NodeSt) (nodeId : String) (c : Nat)
    (posts : List (String × String))
    (hc : c ∉ (mGet st.streams nodeId).getD []) :
    observed (attachThenSend st nodeId c posts).2 c
      = Msg.bootstrap ((mGet st.buffers nodeId).getD [])
          :: posts.map (fun sl => Msg.log sl.1 sl.2) := by
  unfold attachThenSend attach
  have hadd : (addClient st nodeId c).streams
      = mSet st.streams nodeId (((mGet st.streams nodeId).getD []) ++ [c]) := by
    simp [addClient, setAdd, hc]
  have hget : mGet (addClient st nodeId c).streams nodeId
      = some (((mGet st.streams nodeId).getD []) ++ [c]) := by
    rw [hadd, mGet_mSet_self]
  have hfilter : ((((mGet st.streams nodeId).getD []) ++ [c]).filter
      (fun d => d == c)) = [c] := by
    rw [List.filter_append]
    have h1 : ((mGet st.streams nodeId).getD []).filter (fun d => d == c)
        = [] := by
      rw [List.filter_eq_nil_iff]
      intro a ha
      simp only [beq_iff_eq]
      intro hac
      exact hc (hac ▸ ha)
    rw [h1]
    simp
  rw [observed_relay nodeId c (((mGet st.streams nodeId).getD []) ++ [c])
      hfilter posts (addClient st nodeId c)
      [(c, Msg.bootstrap ((mGet st.buffers nodeId).getD []), true)] hget]
  simp [observed]

theorem c5_bootstrap_then_live_witness :
    (0 ∉ ((mGet initSt.streams "n1").getD [] : List Nat)) ∧
    observed (attachThenSend initSt "n1" 0 [("stdout", "x")]).2 0
      = Msg.bootstrap ((mGet initSt.buffers "n1").getD [])
          :: [(("stdout" : String), ("x" : String))].map
              (fun sl => Msg.log sl.1 sl.2) :=
  ⟨by decide, c5_bootstrap_then_live initSt "n1" 0 [("stdout", "x")] (by decide)⟩

end Recode
